import Mathlib

/-!
Shallow embedding of the JOSE key-selection and keystore core of
`matrix-authentication-service`:

* `crates/jose/src/constraints.rs` — the constraint engine
  (`Constraint`, `ConstraintDecision`, `Constrainable`, `ConstraintSet`,
  `ConstraintSet::filter`);
* `crates/keystore/src/lib.rs` — the key codec and algorithm binding
  (`PrivateKey`, `LoadError`, the `load*` family, `signing_key_for_alg`,
  `verifying_key_for_alg`, `to_sec1_der`/`to_sec1_pem`).

External cryptographic and parsing primitives (the `pem-rfc7468`, `der`,
`pkcs1`, `pkcs8`, `sec1`, `rsa` and `elliptic-curve` crates) are modelled as
an explicit environment of abstract total functions (`CryptoEnv`); the
control flow of the repository code over those primitives is translated
directly.
-/

namespace Mas

/-! ## IANA registry enumerations (`mas-iana`) -/

/-- Registered JSON Web Signature algorithms (`JsonWebSignatureAlg`). -/
inductive JsonWebSignatureAlg where
  | Hs256 | Hs384 | Hs512
  | Rs256 | Rs384 | Rs512
  | Es256 | Es384 | Es512
  | Ps256 | Ps384 | Ps512
  | Es256K
  | EdDsa
  | None
deriving DecidableEq, Repr

/-- JSON Web Key usages (`JsonWebKeyUse`). -/
inductive JsonWebKeyUse where
  | Sig
  | Enc
deriving DecidableEq, Repr

/-- JSON Web Key types (`JsonWebKeyType`). -/
inductive JsonWebKeyType where
  | Ec
  | Rsa
  | Oct
  | Okp
deriving DecidableEq, Repr

/-! ## Constraint engine (`crates/jose/src/constraints.rs`) -/

/-- The `Constraint` enum: one matching constraint, holding the value(s) to
match against.  The Rust variants hold references; here they hold values. -/
inductive Constraint where
  | alg (constraint_alg : JsonWebSignatureAlg)
  | algs (constraint_algs : List JsonWebSignatureAlg)
  | kid (constraint_kid : String)
  | use_ (constraint_use : JsonWebKeyUse)
  | kty (constraint_kty : JsonWebKeyType)
deriving DecidableEq, Repr

/-- The ternary `ConstraintDecision`. -/
inductive ConstraintDecision where
  | positive
  | neutral
  | negative
deriving DecidableEq, Repr

/-- The observable surface of the `Constrainable` trait: an optional fixed
algorithm, the list of available algorithms (default empty), an optional key
id, an optional usage, and a mandatory key type.  A trait object is modelled
by the record of its method results. -/
structure Constrainable where
  alg : Option JsonWebSignatureAlg
  algs : List JsonWebSignatureAlg
  kid : Option String
  use_ : Option JsonWebKeyUse
  kty : JsonWebKeyType
deriving DecidableEq, Repr

/-- `Constraint::decide`, translated case for case. -/
def Constraint.decide (c : Constraint) (constrainable : Constrainable) :
    ConstraintDecision :=
  match c with
  | .alg constraint_alg =>
    match constrainable.alg with
    | some a =>
      if a = constraint_alg then .positive else .negative
    | none =>
      if constraint_alg ∈ constrainable.algs then .neutral else .negative
  | .algs constraint_algs =>
    match constrainable.alg with
    | some a =>
      if a ∈ constraint_algs then .positive else .negative
    | none =>
      if constrainable.algs.any (fun a => a ∈ constraint_algs)
        then .neutral else .negative
  | .kid constraint_kid =>
    match constrainable.kid with
    | some k => if k = constraint_kid then .positive else .negative
    | none => .neutral
  | .use_ constraint_use =>
    match constrainable.use_ with
    | some u => if u = constraint_use then .positive else .negative
    | none => .neutral
  | .kty constraint_kty =>
    if constraint_kty = constrainable.kty then .positive else .negative

/-- `ConstraintSet`: a `HashSet<Constraint>`.  The hash set is modelled by
the list of its elements in iteration order; `insert` is a no-op when an
equal element is already present, exactly as `HashSet::insert`. -/
structure ConstraintSet where
  constraints : List Constraint
deriving DecidableEq, Repr

/-- `HashSet::insert`: inserting an element equal to a present one leaves
the set unchanged. -/
def ConstraintSet.insert (s : ConstraintSet) (c : Constraint) : ConstraintSet :=
  if c ∈ s.constraints then s else ⟨c :: s.constraints⟩

/-- The inner loop of `ConstraintSet::filter` for one candidate: walk the
constraints, incrementing `score` on `Positive`, skipping on `Neutral`, and
aborting the candidate (`continue 'outer`) on `Negative`.  `none` models the
aborted candidate. -/
def evalLoop (cs : List Constraint) (x : Constrainable) (score : Nat) :
    Option Nat :=
  match cs with
  | [] => some score
  | c :: rest =>
    match c.decide x with
    | .positive => evalLoop rest x (score + 1)
    | .neutral => evalLoop rest x score
    | .negative => none

/-- `ConstraintSet::filter`: collect each surviving candidate with its
score, stable-sort the pairs ascending by score (`sort_by_key`), and return
the candidates.  `List.mergeSort` is Lean's stable ascending sort, matching
the contract of Rust's stable `sort_by_key`. -/
def ConstraintSet.filter (s : ConstraintSet) (constrainables : List Constrainable) :
    List Constrainable :=
  let selected := constrainables.filterMap
    (fun x => (evalLoop s.constraints x 0).map (fun score => (score, x)))
  (selected.mergeSort (fun a b => decide (a.1 ≤ b.1))).map Prod.snd

/-! ### Specification-side definitions for the constraint engine

These follow the wording of the specification, to be compared with the
translated code above. -/

/-- Spec wording: a candidate survives iff no constraint in the set decides
`Negative`. -/
def survives (s : ConstraintSet) (x : Constrainable) : Bool :=
  s.constraints.all (fun c => c.decide x != .negative)

/-- Spec wording: the score of a candidate is the count of `Positive`
decisions (`Neutral` contributes 0). -/
def specificityScore (s : ConstraintSet) (x : Constrainable) : Nat :=
  s.constraints.countP (fun c => c.decide x == .positive)

/-! ## Key codec and key representation (`crates/keystore/src/lib.rs`) -/

/-- Byte strings, as lists of naturals standing for bytes. -/
abbrev Bytes := List Nat

/-- Object identifiers, as their arc lists. -/
abbrev Oid := List Nat

/-- `rsaEncryption`, `pkcs1::ALGORITHM_OID` (1.2.840.113549.1.1.1). -/
def pkcs1_algorithm_oid : Oid := [1, 2, 840, 113549, 1, 1, 1]

/-- `id-ecPublicKey`, `elliptic_curve::ALGORITHM_OID` (1.2.840.10045.2.1). -/
def elliptic_curve_algorithm_oid : Oid := [1, 2, 840, 10045, 2, 1]

/-- `p256::NistP256::OID` (1.2.840.10045.3.1.7). -/
def p256_oid : Oid := [1, 2, 840, 10045, 3, 1, 7]

/-- `p384::NistP384::OID` (1.3.132.0.34). -/
def p384_oid : Oid := [1, 3, 132, 0, 34]

/-- `k256::Secp256k1::OID` (1.3.132.0.10). -/
def k256_oid : Oid := [1, 3, 132, 0, 10]

/-- `pkcs1::RsaPrivateKey::PEM_LABEL`. -/
def pkcs1_pem_label : String := "RSA PRIVATE KEY"

/-- `pkcs8::PrivateKeyInfo::PEM_LABEL`. -/
def pkcs8_pem_label : String := "PRIVATE KEY"

/-- `sec1::EcPrivateKey::PEM_LABEL`. -/
def sec1_pem_label : String := "EC PRIVATE KEY"

/-- `pkcs8::EncryptedPrivateKeyInfo::PEM_LABEL`. -/
def encrypted_pkcs8_pem_label : String := "ENCRYPTED PRIVATE KEY"

/-- Opaque error payloads of the external crates; the repository code only
propagates them, so each is a bare tag. -/
structure PemError where
  code : Nat
deriving DecidableEq, Repr

/-- An error of the `der` crate. -/
structure DerError where
  code : Nat
deriving DecidableEq, Repr

/-- An error of the `spki` crate. -/
structure SpkiError where
  code : Nat
deriving DecidableEq, Repr

/-- An error of the `rsa` crate. -/
structure RsaError where
  code : Nat
deriving DecidableEq, Repr

/-- An error of the `pkcs8` crate (also covers decryption failures). -/
structure Pkcs8Error where
  code : Nat
deriving DecidableEq, Repr

/-- The `pkcs1` crate's error: the repository raises `pkcs1::Error::Version`
itself; other variants are opaque. -/
inductive Pkcs1Error where
  | version
  | other (code : Nat)
deriving DecidableEq, Repr

/-- The `LoadError` enum, variant for variant. -/
inductive LoadError where
  | pem (inner : PemError)
  | rsa (inner : RsaError)
  | pkcs1 (inner : Pkcs1Error)
  | pkcs8 (inner : Pkcs8Error)
  | der (inner : DerError)
  | spki (inner : SpkiError)
  | unknownEllipticCurveOid (oid : Oid)
  | unknownAlgorithmOid (oid : Oid)
  | unsupportedPemLabel (label : String)
  | missingSec1Parameters
  | missingSec1CurveName
  | encrypted
  | unencrypted
  | unsupportedFormat
  | inEncrypted (inner : LoadError)
deriving DecidableEq, Repr

/-- `pkcs1::Version`: two-prime or multi-prime. -/
inductive Pkcs1Version where
  | twoPrime
  | multi
deriving DecidableEq, Repr

/-- The parsed `pkcs1::RsaPrivateKey` structure (the fields read by the
repository code). -/
structure Pkcs1RsaPrivateKey where
  version : Pkcs1Version
  modulus : Bytes
  public_exponent : Bytes
  private_exponent : Bytes
  prime1 : Bytes
  prime2 : Bytes
deriving DecidableEq, Repr

/-- The parsed `pkcs8::PrivateKeyInfo` structure.  The algorithm parameters
are modelled by the outcome of the only accessor the repository calls,
`algorithm.parameters_oid()`. -/
structure PrivateKeyInfo where
  algorithm_oid : Oid
  algorithm_parameters_oid : Except SpkiError Oid
  private_key : Bytes

/-- `sec1::EcParameters`: a named curve, or some other parameter choice
(for which `named_curve()` returns `None`). -/
inductive EcParameters where
  | namedCurve (oid : Oid)
  | otherChoice (code : Nat)
deriving DecidableEq, Repr

/-- `sec1::EcParameters::named_curve`. -/
def EcParameters.named_curve : EcParameters → Option Oid
  | .namedCurve oid => some oid
  | .otherChoice _ => none

/-- A SEC1 encoded elliptic-curve point: the compression flag passed to
`to_encoded_point` together with the abstract identity of the point. -/
structure EncodedPoint where
  compressed : Bool
  point : Nat
deriving DecidableEq, Repr

/-- The `sec1::EcPrivateKey` structure. -/
structure Sec1EcPrivateKey where
  private_key : Bytes
  parameters : Option EcParameters
  public_key : Option EncodedPoint
deriving DecidableEq, Repr

/-- The parsed `pkcs8::EncryptedPrivateKeyInfo` container. -/
structure EncryptedPrivateKeyInfo where
  data : Bytes
deriving DecidableEq, Repr

/-- An `rsa::RsaPrivateKey` as produced by `from_components`. -/
structure RsaKey where
  n : Nat
  e : Nat
  d : Nat
  primes : List Nat
deriving DecidableEq, Repr

/-- An `rsa::RsaPublicKey`. -/
structure RsaPublicKey where
  n : Nat
  e : Nat
deriving DecidableEq, Repr

/-- `RsaPrivateKey::to_public_key` keeps the public components. -/
def RsaKey.to_public_key (k : RsaKey) : RsaPublicKey := ⟨k.n, k.e⟩

/-- The three supported named curves. -/
inductive EcCurve where
  | p256
  | p384
  | k256
deriving DecidableEq, Repr

/-- `C::OID` for each supported curve. -/
def EcCurve.oid : EcCurve → Oid
  | .p256 => p256_oid
  | .p384 => p384_oid
  | .k256 => k256_oid

/-- `pem_rfc7468::LineEnding`. -/
inductive LineEnding where
  | lf
  | crlf
deriving DecidableEq, Repr

/-- The `PrivateKey` enum.  An elliptic-curve secret key is modelled by its
secret scalar. -/
inductive PrivateKey where
  | Rsa (key : RsaKey)
  | EcP256 (key : Nat)
  | EcP384 (key : Nat)
  | EcK256 (key : Nat)
deriving DecidableEq, Repr

/-- `WrongAlgorithmError`: a single error kind with no payload. -/
inductive WrongAlgorithmError where
  | mk
deriving DecidableEq, Repr

/-- `mas_jose::jwa::AsymmetricSigningKey`, one constructor per algorithm. -/
inductive AsymmetricSigningKey where
  | rs256 (key : RsaKey)
  | rs384 (key : RsaKey)
  | rs512 (key : RsaKey)
  | ps256 (key : RsaKey)
  | ps384 (key : RsaKey)
  | ps512 (key : RsaKey)
  | es256 (key : Nat)
  | es384 (key : Nat)
  | es256k (key : Nat)
deriving DecidableEq, Repr

/-- `mas_jose::jwa::AsymmetricVerifyingKey`.  Elliptic-curve public keys
are abstract points (naturals). -/
inductive AsymmetricVerifyingKey where
  | rs256 (key : RsaPublicKey)
  | rs384 (key : RsaPublicKey)
  | rs512 (key : RsaPublicKey)
  | ps256 (key : RsaPublicKey)
  | ps384 (key : RsaPublicKey)
  | ps512 (key : RsaPublicKey)
  | es256 (key : Nat)
  | es384 (key : Nat)
  | es256k (key : Nat)
deriving DecidableEq, Repr

/-- The external parsing, encoding and cryptographic primitives used by the
keystore, as an abstract environment of total functions.  The repository's
control flow over these primitives is what the claims are about. -/
structure CryptoEnv where
  /-- `std::str::from_utf8`, `none` on invalid UTF-8. -/
  from_utf8 : Bytes → Option String
  /-- `pem_rfc7468::decode_vec`: label and DER payload of a PEM document. -/
  pem_decode : String → Except PemError (String × Bytes)
  /-- `pkcs1::RsaPrivateKey::from_der`. -/
  pkcs1_from_der : Bytes → Except DerError Pkcs1RsaPrivateKey
  /-- `pkcs8::PrivateKeyInfo::from_der`. -/
  pkcs8_from_der : Bytes → Except DerError PrivateKeyInfo
  /-- `sec1::EcPrivateKey::from_der`. -/
  sec1_from_der : Bytes → Except DerError Sec1EcPrivateKey
  /-- `pkcs8::EncryptedPrivateKeyInfo::from_der`. -/
  encrypted_pkcs8_from_der : Bytes → Except DerError EncryptedPrivateKeyInfo
  /-- `EncryptedPrivateKeyInfo::decrypt` with a password. -/
  decrypt : EncryptedPrivateKeyInfo → Bytes → Except Pkcs8Error Bytes
  /-- `rsa::RsaPrivateKey::from_components`. -/
  rsa_from_components : Nat → Nat → Nat → List Nat → Except RsaError RsaKey
  /-- `TryFrom<PrivateKeyInfo> for rsa::RsaPrivateKey`. -/
  rsa_from_info : PrivateKeyInfo → Except Pkcs8Error RsaKey
  /-- `TryFrom<PrivateKeyInfo> for SecretKey<NistP256>`. -/
  ec_p256_from_info : PrivateKeyInfo → Except Pkcs8Error Nat
  /-- `TryFrom<PrivateKeyInfo> for SecretKey<NistP384>`. -/
  ec_p384_from_info : PrivateKeyInfo → Except Pkcs8Error Nat
  /-- `TryFrom<PrivateKeyInfo> for SecretKey<Secp256k1>`. -/
  ec_k256_from_info : PrivateKeyInfo → Except Pkcs8Error Nat
  /-- `TryFrom<sec1::EcPrivateKey> for SecretKey<NistP256>`. -/
  ec_p256_from_sec1 : Sec1EcPrivateKey → Except DerError Nat
  /-- `TryFrom<sec1::EcPrivateKey> for SecretKey<NistP384>`. -/
  ec_p384_from_sec1 : Sec1EcPrivateKey → Except DerError Nat
  /-- `TryFrom<sec1::EcPrivateKey> for SecretKey<Secp256k1>`. -/
  ec_k256_from_sec1 : Sec1EcPrivateKey → Except DerError Nat
  /-- Scalar multiplication by the base point: `SecretKey::public_key`. -/
  public_point : EcCurve → Nat → Nat
  /-- `SecretKey::to_bytes`: the SEC1 field encoding of the scalar. -/
  scalar_bytes : EcCurve → Nat → Bytes
  /-- `RsaPrivateKey::to_pkcs1_der`. -/
  rsa_to_pkcs1_der : RsaKey → Except DerError Bytes
  /-- `RsaPrivateKey::to_pkcs1_pem`. -/
  rsa_to_pkcs1_pem : RsaKey → LineEnding → Except DerError String
  /-- `der::Encode::to_der` on a `sec1::EcPrivateKey`. -/
  sec1_to_der : Sec1EcPrivateKey → Except DerError Bytes
  /-- `der::EncodePem::to_pem` on a `sec1::EcPrivateKey`. -/
  sec1_to_pem : Sec1EcPrivateKey → LineEnding → Except DerError String

/-- `rsa::BigUint::from_bytes_be`. -/
def from_bytes_be (b : Bytes) : Nat :=
  b.foldl (fun acc x => acc * 256 + x) 0

namespace PrivateKey

/-- `PrivateKey::from_pkcs1_private_key`: reject multi-prime keys with
`pkcs1::Error::Version`, then build the RSA key from its components. -/
def from_pkcs1_private_key (env : CryptoEnv) (pkcs1_key : Pkcs1RsaPrivateKey) :
    Except LoadError PrivateKey :=
  if pkcs1_key.version ≠ Pkcs1Version.twoPrime then
    .error (.pkcs1 .version)
  else
    match env.rsa_from_components
        (from_bytes_be pkcs1_key.modulus)
        (from_bytes_be pkcs1_key.public_exponent)
        (from_bytes_be pkcs1_key.private_exponent)
        [from_bytes_be pkcs1_key.prime1, from_bytes_be pkcs1_key.prime2] with
    | .ok key => .ok (.Rsa key)
    | .error err => .error (.rsa err)

/-- `PrivateKey::from_private_key_info`: dispatch on the algorithm OID, then
for elliptic curves on the parameters OID. -/
def from_private_key_info (env : CryptoEnv) (info : PrivateKeyInfo) :
    Except LoadError PrivateKey :=
  if info.algorithm_oid = pkcs1_algorithm_oid then
    match env.rsa_from_info info with
    | .ok key => .ok (.Rsa key)
    | .error err => .error (.pkcs8 err)
  else if info.algorithm_oid = elliptic_curve_algorithm_oid then
    match info.algorithm_parameters_oid with
    | .error err => .error (.spki err)
    | .ok oid =>
      if oid = p256_oid then
        match env.ec_p256_from_info info with
        | .ok key => .ok (.EcP256 key)
        | .error err => .error (.pkcs8 err)
      else if oid = p384_oid then
        match env.ec_p384_from_info info with
        | .ok key => .ok (.EcP384 key)
        | .error err => .error (.pkcs8 err)
      else if oid = k256_oid then
        match env.ec_k256_from_info info with
        | .ok key => .ok (.EcK256 key)
        | .error err => .error (.pkcs8 err)
      else .error (.unknownEllipticCurveOid oid)
  else .error (.unknownAlgorithmOid info.algorithm_oid)

/-- `PrivateKey::from_ec_private_key`: require named-curve parameters, then
dispatch on the curve OID. -/
def from_ec_private_key (env : CryptoEnv) (key : Sec1EcPrivateKey) :
    Except LoadError PrivateKey :=
  match key.parameters with
  | none => .error .missingSec1Parameters
  | some ps =>
    match ps.named_curve with
    | none => .error .missingSec1CurveName
    | some curve =>
      if curve = p256_oid then
        match env.ec_p256_from_sec1 key with
        | .ok k => .ok (.EcP256 k)
        | .error err => .error (.der err)
      else if curve = p384_oid then
        match env.ec_p384_from_sec1 key with
        | .ok k => .ok (.EcP384 k)
        | .error err => .error (.der err)
      else if curve = k256_oid then
        match env.ec_k256_from_sec1 key with
        | .ok k => .ok (.EcK256 k)
        | .error err => .error (.der err)
      else .error (.unknownEllipticCurveOid curve)

/-- `PrivateKey::load_der`: fail fast with `Encrypted` if an encrypted
PKCS#8 container parses; otherwise try PKCS#8, SEC1 and PKCS#1, in that
order, committing to the first structure that parses. -/
def load_der (env : CryptoEnv) (der : Bytes) : Except LoadError PrivateKey :=
  match env.encrypted_pkcs8_from_der der with
  | .ok _ => .error .encrypted
  | .error _ =>
    match env.pkcs8_from_der der with
    | .ok info => from_private_key_info env info
    | .error _ =>
      match env.sec1_from_der der with
      | .ok info => from_ec_private_key env info
      | .error _ =>
        match env.pkcs1_from_der der with
        | .ok pkcs1_key => from_pkcs1_private_key env pkcs1_key
        | .error _ => .error .unsupportedFormat

/-- `PrivateKey::load_encrypted_der`: decrypt an encrypted PKCS#8 container
and re-run the unencrypted DER loader, wrapping its errors in
`InEncrypted`; a plain recognized structure yields `Unencrypted`. -/
def load_encrypted_der (env : CryptoEnv) (der : Bytes) (password : Bytes) :
    Except LoadError PrivateKey :=
  match env.encrypted_pkcs8_from_der der with
  | .ok info =>
    match env.decrypt info password with
    | .error err => .error (.pkcs8 err)
    | .ok decrypted =>
      match load_der env decrypted with
      | .ok key => .ok key
      | .error inner => .error (.inEncrypted inner)
  | .error _ =>
    if (env.pkcs8_from_der der).isOk
        || (env.sec1_from_der der).isOk
        || (env.pkcs1_from_der der).isOk then
      .error .unencrypted
    else
      .error .unsupportedFormat

/-- `PrivateKey::load_pem`: decode the PEM container and dispatch on its
label. -/
def load_pem (env : CryptoEnv) (pem : String) : Except LoadError PrivateKey :=
  match env.pem_decode pem with
  | .error err => .error (.pem err)
  | .ok (label, doc) =>
    if label = pkcs1_pem_label then
      match env.pkcs1_from_der doc with
      | .ok pkcs1_key => from_pkcs1_private_key env pkcs1_key
      | .error err => .error (.der err)
    else if label = pkcs8_pem_label then
      match env.pkcs8_from_der doc with
      | .ok info => from_private_key_info env info
      | .error err => .error (.der err)
    else if label = sec1_pem_label then
      match env.sec1_from_der doc with
      | .ok info => from_ec_private_key env info
      | .error err => .error (.der err)
    else if label = encrypted_pkcs8_pem_label then
      .error .encrypted
    else
      .error (.unsupportedPemLabel label)

/-- `PrivateKey::load_encrypted_pem`: only the encrypted PKCS#8 label is
accepted; the three plain labels yield `Unencrypted`. -/
def load_encrypted_pem (env : CryptoEnv) (pem : String) (password : Bytes) :
    Except LoadError PrivateKey :=
  match env.pem_decode pem with
  | .error err => .error (.pem err)
  | .ok (label, doc) =>
    if label = encrypted_pkcs8_pem_label then
      match env.encrypted_pkcs8_from_der doc with
      | .error err => .error (.der err)
      | .ok info =>
        match env.decrypt info password with
        | .error err => .error (.pkcs8 err)
        | .ok decrypted =>
          match load_der env decrypted with
          | .ok key => .ok key
          | .error inner => .error (.inEncrypted inner)
    else if label = pkcs1_pem_label ∨ label = pkcs8_pem_label
        ∨ label = sec1_pem_label then
      .error .unencrypted
    else
      .error (.unsupportedPemLabel label)

/-- `PrivateKey::load`: try PEM first when the bytes are valid UTF-8; a PEM
container error falls through to DER, any other error is returned. -/
def load (env : CryptoEnv) (bytes : Bytes) : Except LoadError PrivateKey :=
  match env.from_utf8 bytes with
  | some pem =>
    match load_pem env pem with
    | .ok s => .ok s
    | .error (.pem _) => load_der env bytes
    | .error e => .error e
  | none => load_der env bytes

/-- `PrivateKey::load_encrypted`: the same container precedence as `load`,
over the encrypted loaders. -/
def load_encrypted (env : CryptoEnv) (bytes : Bytes) (password : Bytes) :
    Except LoadError PrivateKey :=
  match env.from_utf8 bytes with
  | some pem =>
    match load_encrypted_pem env pem password with
    | .ok s => .ok s
    | .error (.pem _) => load_encrypted_der env bytes password
    | .error e => .error e
  | none => load_encrypted_der env bytes password

/-- `PrivateKey::verifying_key_for_alg`, match arm for match arm. -/
def verifying_key_for_alg (env : CryptoEnv) (k : PrivateKey)
    (alg : JsonWebSignatureAlg) :
    Except WrongAlgorithmError AsymmetricVerifyingKey :=
  match k, alg with
  | .Rsa key, a =>
    let pk := key.to_public_key
    match a with
    | .Rs256 => .ok (.rs256 pk)
    | .Rs384 => .ok (.rs384 pk)
    | .Rs512 => .ok (.rs512 pk)
    | .Ps256 => .ok (.ps256 pk)
    | .Ps384 => .ok (.ps384 pk)
    | .Ps512 => .ok (.ps512 pk)
    | _ => .error .mk
  | .EcP256 key, .Es256 => .ok (.es256 (env.public_point .p256 key))
  | .EcP384 key, .Es384 => .ok (.es384 (env.public_point .p384 key))
  | .EcK256 key, .Es256K => .ok (.es256k (env.public_point .k256 key))
  | _, _ => .error .mk

/-- `PrivateKey::signing_key_for_alg`, match arm for match arm. -/
def signing_key_for_alg (k : PrivateKey) (alg : JsonWebSignatureAlg) :
    Except WrongAlgorithmError AsymmetricSigningKey :=
  match k, alg with
  | .Rsa key, a =>
    match a with
    | .Rs256 => .ok (.rs256 key)
    | .Rs384 => .ok (.rs384 key)
    | .Rs512 => .ok (.rs512 key)
    | .Ps256 => .ok (.ps256 key)
    | .Ps384 => .ok (.ps384 key)
    | .Ps512 => .ok (.ps512 key)
    | _ => .error .mk
  | .EcP256 key, .Es256 => .ok (.es256 key)
  | .EcP384 key, .Es384 => .ok (.es384 key)
  | .EcK256 key, .Es256K => .ok (.es256k key)
  | _, _ => .error .mk

end PrivateKey

/-- The `sec1::EcPrivateKey` structure built by `to_sec1_der` and
`to_sec1_pem`: the named-curve OID and the uncompressed public point are
embedded explicitly (`to_encoded_point(false)`). -/
def sec1_structure (env : CryptoEnv) (curve : EcCurve) (key : Nat) :
    Sec1EcPrivateKey :=
  { private_key := env.scalar_bytes curve key
    parameters := some (.namedCurve curve.oid)
    public_key := some ⟨false, env.public_point curve key⟩ }

/-- `to_sec1_der`. -/
def to_sec1_der (env : CryptoEnv) (curve : EcCurve) (key : Nat) :
    Except DerError Bytes :=
  env.sec1_to_der (sec1_structure env curve key)

/-- `to_sec1_pem`. -/
def to_sec1_pem (env : CryptoEnv) (curve : EcCurve) (key : Nat)
    (line_ending : LineEnding) : Except DerError String :=
  env.sec1_to_pem (sec1_structure env curve key) line_ending

/-- `PrivateKey::to_der`: PKCS#1 for RSA keys, SEC1 for elliptic-curve
keys. -/
def PrivateKey.to_der (env : CryptoEnv) : PrivateKey → Except DerError Bytes
  | .Rsa key => env.rsa_to_pkcs1_der key
  | .EcP256 key => to_sec1_der env .p256 key
  | .EcP384 key => to_sec1_der env .p384 key
  | .EcK256 key => to_sec1_der env .k256 key

/-- `PrivateKey::to_pem`: PKCS#1 for RSA keys, SEC1 for elliptic-curve
keys. -/
def PrivateKey.to_pem (env : CryptoEnv) (line_ending : LineEnding) :
    PrivateKey → Except DerError String
  | .Rsa key => env.rsa_to_pkcs1_pem key line_ending
  | .EcP256 key => to_sec1_pem env .p256 key line_ending
  | .EcP384 key => to_sec1_pem env .p384 key line_ending
  | .EcK256 key => to_sec1_pem env .k256 key line_ending

/-! ### Specification-side compatibility table (§4.2) -/

/-- The compatibility table of §4.2, written from the spec: RSA with the six
RSA algorithms, each curve with exactly its one algorithm. -/
def specCompatible (k : PrivateKey) (a : JsonWebSignatureAlg) : Bool :=
  match k, a with
  | .Rsa _, .Rs256 | .Rsa _, .Rs384 | .Rsa _, .Rs512
  | .Rsa _, .Ps256 | .Rsa _, .Ps384 | .Rsa _, .Ps512
  | .EcP256 _, .Es256 | .EcP384 _, .Es384 | .EcK256 _, .Es256K => true
  | _, _ => false

/-! ## Lemmas about the constraint engine -/

/-- The candidate loop denotes: `none` iff some constraint decides
`Negative`, otherwise the accumulator plus the count of `Positive`
decisions. -/
theorem evalLoop_eq (cs : List Constraint) (x : Constrainable) (n : Nat) :
    evalLoop cs x n =
      if cs.all (fun c => c.decide x != ConstraintDecision.negative) then
        some (n + cs.countP (fun c => c.decide x == ConstraintDecision.positive))
      else none := by
  induction cs generalizing n with
  | nil => simp [evalLoop]
  | cons c rest ih =>
    cases h : c.decide x with
    | positive =>
      simp only [evalLoop, h, ih, List.all_cons, List.countP_cons]
      by_cases hall :
          rest.all (fun c => c.decide x != ConstraintDecision.negative) = true
      · simp [hall]
        try omega
      · simp [hall]
    | neutral =>
      simp only [evalLoop, h, ih, List.all_cons, List.countP_cons]
      by_cases hall :
          rest.all (fun c => c.decide x != ConstraintDecision.negative) = true
      · simp [hall]
      · simp [hall]
    | negative =>
      simp [evalLoop, List.all_cons, h]

/-- Collecting `(score, x)` pairs over a list is filtering then pairing. -/
theorem filterMap_if_pair {α : Type} (p : α → Bool) (g : α → Nat) (l : List α) :
    l.filterMap (fun x => if p x then some (g x, x) else none)
      = (l.filter p).map (fun x => (g x, x)) := by
  induction l with
  | nil => rfl
  | cons a l ih =>
    by_cases h : p a = true <;>
      simp [List.filterMap_cons, List.filter_cons, h, ih]

/-- The per-candidate pass of `filter` in terms of the spec-side
`survives` and `specificityScore`. -/
theorem evalLoop_zero_eq (s : ConstraintSet) (x : Constrainable) :
    (evalLoop s.constraints x 0).map (fun score => (score, x))
      = if survives s x then some (specificityScore s x, x) else none := by
  rw [evalLoop_eq]
  unfold survives specificityScore
  split <;> simp

/-- A stable ascending sort does not move elements whose key is constant:
filtering the sorted list by a class of mutually-`le` elements returns that
class in input order. -/
theorem mergeSort_filter_of_class {α : Type} {le : α → α → Bool} {l : List α}
    (trans : ∀ (a b c : α), le a b → le b c → le a c)
    (total : ∀ (a b : α), le a b || le b a)
    (p : α → Bool) (hp : ∀ x y, p x → p y → le x y) :
    (l.mergeSort le).filter p = l.filter p := by
  have hsub : List.Sublist (l.filter p) (l.mergeSort le) := by
    apply List.sublist_mergeSort trans total
    · exact List.pairwise_of_forall_mem_list fun a ha b hb =>
        hp a b (List.of_mem_filter ha) (List.of_mem_filter hb)
    · exact List.filter_sublist l
  have hself : (l.filter p).filter p = l.filter p := by
    rw [List.filter_eq_self]
    exact fun a ha => List.of_mem_filter ha
  have hsub2 : List.Sublist (l.filter p) ((l.mergeSort le).filter p) := by
    rw [← hself]
    exact hsub.filter p
  have hperm : List.Perm ((l.mergeSort le).filter p) (l.filter p) :=
    (List.mergeSort_perm l le).filter p
  exact (hsub2.eq_of_length hperm.length_eq.symm).symm

/-- `ConstraintSet::filter` is: keep the survivors, stable-sort them
ascending by specificity score. -/
theorem filter_eq_mergeSort (s : ConstraintSet) (cands : List Constrainable) :
    ConstraintSet.filter s cands
      = (cands.filter (survives s)).mergeSort
          (fun a b => decide (specificityScore s a ≤ specificityScore s b)) := by
  unfold ConstraintSet.filter
  have h1 : (fun x => (evalLoop s.constraints x 0).map (fun score => (score, x)))
      = fun x => if survives s x then some (specificityScore s x, x) else none :=
    funext fun x => evalLoop_zero_eq s x
  rw [h1, filterMap_if_pair]
  rw [List.map_mergeSort (f := Prod.snd)
    (s := fun a b => decide (specificityScore s a ≤ specificityScore s b))]
  · rw [List.map_map]
    have : (Prod.snd ∘ fun x => (specificityScore s x, x)) = id := rfl
    rw [this, List.map_id]
  · intro a ha b hb
    obtain ⟨xa, -, rfl⟩ := List.mem_map.mp ha
    obtain ⟨xb, -, rfl⟩ := List.mem_map.mp hb
    rfl

/-- C2: `ConstraintSet::filter` keeps exactly the candidates on which no
constraint decides `Negative` (with multiplicity), returns them in ascending
order of the count of `Positive` decisions, and candidates of equal score
keep the relative order they had in the input collection. -/
theorem claim_C2_filter_correct (s : ConstraintSet) (cands : List Constrainable) :
    (ConstraintSet.filter s cands).Perm (cands.filter (survives s))
    ∧ (ConstraintSet.filter s cands).Pairwise
        (fun x y => specificityScore s x ≤ specificityScore s y)
    ∧ ∀ v : Nat,
        (ConstraintSet.filter s cands).filter
            (fun x => specificityScore s x == v)
          = (cands.filter (survives s)).filter
              (fun x => specificityScore s x == v) := by
  have htrans : ∀ (a b c : Constrainable),
      decide (specificityScore s a ≤ specificityScore s b)
      → decide (specificityScore s b ≤ specificityScore s c)
      → decide (specificityScore s a ≤ specificityScore s c) := by
    intro a b c hab hbc
    simp only [decide_eq_true_eq] at *
    omega
  have htotal : ∀ (a b : Constrainable),
      decide (specificityScore s a ≤ specificityScore s b)
      || decide (specificityScore s b ≤ specificityScore s a) := by
    intro a b
    simp only [Bool.or_eq_true, decide_eq_true_eq]
    omega
  rw [filter_eq_mergeSort]
  refine ⟨List.mergeSort_perm _ _, ?_, ?_⟩
  · have := List.sorted_mergeSort htrans htotal (cands.filter (survives s))
    exact this.imp (fun h => by simpa using h)
  · intro v
    apply mergeSort_filter_of_class htrans htotal
    intro x y hx hy
    simp only [beq_iff_eq] at hx hy
    simp [hx, hy]

/-- C3: `Constraint::decide` implements the specified ternary table: the
exact-algorithm, algorithm-allowlist, exact-key-id and exact-usage
constraints are `Positive` exactly on a declared equal (or listed) value,
`Negative` on a declared different value, `Neutral` exactly when nothing is
declared (for algorithms: when no fixed algorithm is declared but the target
is among the possible ones); exact-key-type is never `Neutral`. -/
theorem claim_C3_decide_table (x : Constrainable) (a : JsonWebSignatureAlg)
    (L : List JsonWebSignatureAlg) (k : String) (u : JsonWebKeyUse)
    (t : JsonWebKeyType) :
    ((Constraint.alg a).decide x = .positive ↔ x.alg = some a)
    ∧ ((Constraint.alg a).decide x = .neutral ↔ x.alg = none ∧ a ∈ x.algs)
    ∧ ((Constraint.alg a).decide x = .negative ↔
        (∃ b, x.alg = some b ∧ b ≠ a) ∨ (x.alg = none ∧ a ∉ x.algs))
    ∧ ((Constraint.algs L).decide x = .positive ↔ ∃ b, x.alg = some b ∧ b ∈ L)
    ∧ ((Constraint.algs L).decide x = .neutral ↔
        x.alg = none ∧ ∃ b ∈ x.algs, b ∈ L)
    ∧ ((Constraint.algs L).decide x = .negative ↔
        (∃ b, x.alg = some b ∧ b ∉ L)
        ∨ (x.alg = none ∧ ∀ b ∈ x.algs, b ∉ L))
    ∧ ((Constraint.kid k).decide x = .positive ↔ x.kid = some k)
    ∧ ((Constraint.kid k).decide x = .neutral ↔ x.kid = none)
    ∧ ((Constraint.kid k).decide x = .negative ↔ ∃ k2, x.kid = some k2 ∧ k2 ≠ k)
    ∧ ((Constraint.use_ u).decide x = .positive ↔ x.use_ = some u)
    ∧ ((Constraint.use_ u).decide x = .neutral ↔ x.use_ = none)
    ∧ ((Constraint.use_ u).decide x = .negative ↔
        ∃ u2, x.use_ = some u2 ∧ u2 ≠ u)
    ∧ ((Constraint.kty t).decide x ≠ .neutral)
    ∧ ((Constraint.kty t).decide x = .positive ↔ x.kty = t)
    ∧ ((Constraint.kty t).decide x = .negative ↔ x.kty ≠ t) := by
  obtain ⟨xalg, xalgs, xkid, xuse, xkty⟩ := x
  refine ⟨?_, ?_, ?_, ?_, ?_, ?_, ?_, ?_, ?_, ?_, ?_, ?_, ?_, ?_, ?_⟩
  · cases xalg <;> simp only [Constraint.decide] <;> split <;> simp_all
  · cases xalg <;> simp only [Constraint.decide] <;> split <;> simp_all
  · cases xalg <;> simp only [Constraint.decide] <;> split <;> simp_all
  · cases xalg <;> simp only [Constraint.decide] <;> split <;> simp_all
  · cases xalg <;> simp only [Constraint.decide] <;> split <;> simp_all
  · cases xalg <;> simp only [Constraint.decide] <;> split <;> simp_all
  · cases xkid <;> simp only [Constraint.decide] <;> try split
    all_goals simp_all
  · cases xkid <;> simp only [Constraint.decide] <;> try split
    all_goals simp_all
  · cases xkid <;> simp only [Constraint.decide] <;> try split
    all_goals simp_all
  · cases xuse <;> simp only [Constraint.decide] <;> try split
    all_goals simp_all
  · cases xuse <;> simp only [Constraint.decide] <;> try split
    all_goals simp_all
  · cases xuse <;> simp only [Constraint.decide] <;> try split
    all_goals simp_all
  · simp only [Constraint.decide]
    split <;> simp_all
  · simp only [Constraint.decide]
    split <;> simp_all [eq_comm]
  · simp only [Constraint.decide]
    split <;> simp_all [eq_comm]

/-- C8: the result of `ConstraintSet::filter` does not depend on the order
in which the constraints of the set are evaluated, and inserting a
constraint equal to one already present leaves the result unchanged. -/
theorem claim_C8_order_and_duplicates (cands : List Constrainable)
    (s1 s2 : ConstraintSet) (c : Constraint)
    (hperm : s1.constraints.Perm s2.constraints)
    (hc : c ∈ s1.constraints) :
    ConstraintSet.filter s1 cands = ConstraintSet.filter s2 cands
    ∧ ConstraintSet.filter (s1.insert c) cands = ConstraintSet.filter s1 cands := by
  constructor
  · have heval : ∀ x n, evalLoop s1.constraints x n = evalLoop s2.constraints x n := by
      intro x n
      rw [evalLoop_eq, evalLoop_eq]
      have hall : s1.constraints.all (fun c => c.decide x != ConstraintDecision.negative)
          = s2.constraints.all (fun c => c.decide x != ConstraintDecision.negative) := by
        cases h1 : s1.constraints.all (fun c => c.decide x != ConstraintDecision.negative) with
        | true =>
          rw [List.all_eq_true] at h1
          exact (List.all_eq_true.mpr fun y hy => h1 y (hperm.mem_iff.mpr hy)).symm
        | false =>
          cases h2 : s2.constraints.all (fun c => c.decide x != ConstraintDecision.negative) with
          | true =>
            rw [List.all_eq_true] at h2
            rw [← h1]
            exact List.all_eq_true.mpr fun y hy => h2 y (hperm.mem_iff.mp hy)
          | false => rfl
      rw [hall, hperm.countP_eq]
    unfold ConstraintSet.filter
    have : (fun x => (evalLoop s1.constraints x 0).map (fun score => (score, x)))
        = fun x => (evalLoop s2.constraints x 0).map (fun score => (score, x)) :=
      funext fun x => by rw [heval x 0]
    rw [this]
  · simp [ConstraintSet.insert, hc]

/-! ## Claims about the key codec and algorithm binding -/

/-- C1: algorithm binding is total and exactly matches the compatibility
table: for every key variant and algorithm, `signing_key_for_alg` and
`verifying_key_for_alg` both return a bound handle iff the pair is
(RSA, one of RS256/RS384/RS512/PS256/PS384/PS512), (P-256, ES256),
(P-384, ES384) or (secp256k1, ES256K); on every other pair both return
`WrongAlgorithmError`. -/
theorem claim_C1_algorithm_binding (env : CryptoEnv) (k : PrivateKey)
    (a : JsonWebSignatureAlg) :
    ((∃ sk, PrivateKey.signing_key_for_alg k a = .ok sk)
        ↔ specCompatible k a = true)
    ∧ ((∃ vk, PrivateKey.verifying_key_for_alg env k a = .ok vk)
        ↔ specCompatible k a = true)
    ∧ (specCompatible k a = false →
        PrivateKey.signing_key_for_alg k a = .error .mk
        ∧ PrivateKey.verifying_key_for_alg env k a = .error .mk) := by
  cases k <;> cases a <;>
    simp [PrivateKey.signing_key_for_alg, PrivateKey.verifying_key_for_alg,
      specCompatible]

/-- C4: `load` attempts PEM decoding first iff the bytes are valid UTF-8; a
failure of the PEM container decoding itself falls through to DER decoding
of the raw bytes; any other PEM-path error is returned immediately, and a
PEM success is returned as is. -/
theorem claim_C4_load_precedence (env : CryptoEnv) (bytes : Bytes) :
    (env.from_utf8 bytes = none →
      PrivateKey.load env bytes = PrivateKey.load_der env bytes)
    ∧ (∀ pem, env.from_utf8 bytes = some pem →
        (∀ e, PrivateKey.load_pem env pem = .error (.pem e) →
          PrivateKey.load env bytes = PrivateKey.load_der env bytes)
        ∧ (∀ k, PrivateKey.load_pem env pem = .ok k →
          PrivateKey.load env bytes = .ok k)
        ∧ (∀ e, PrivateKey.load_pem env pem = .error e →
          (∀ pe, e ≠ .pem pe) →
          PrivateKey.load env bytes = .error e)) := by
  refine ⟨fun h => by simp [PrivateKey.load, h], ?_⟩
  intro pem hpem
  refine ⟨?_, ?_, ?_⟩
  · intro e he
    simp [PrivateKey.load, hpem, he]
  · intro k hk
    simp [PrivateKey.load, hpem, hk]
  · intro e he hne
    simp only [PrivateKey.load, hpem]
    rw [he]
    cases e <;> simp_all

/-- C5: `load_der` fails fast with `Encrypted` when a PKCS#8 encrypted
container parses; otherwise it commits to the first of PKCS#8, SEC1, PKCS#1
that parses, and fails with `UnsupportedFormat` when none does. -/
theorem claim_C5_load_der_order (env : CryptoEnv) (der : Bytes) :
    (∀ info, env.encrypted_pkcs8_from_der der = .ok info →
      PrivateKey.load_der env der = .error .encrypted)
    ∧ (∀ e info, env.encrypted_pkcs8_from_der der = .error e →
        env.pkcs8_from_der der = .ok info →
        PrivateKey.load_der env der = PrivateKey.from_private_key_info env info)
    ∧ (∀ e1 e2 key, env.encrypted_pkcs8_from_der der = .error e1 →
        env.pkcs8_from_der der = .error e2 →
        env.sec1_from_der der = .ok key →
        PrivateKey.load_der env der = PrivateKey.from_ec_private_key env key)
    ∧ (∀ e1 e2 e3 key, env.encrypted_pkcs8_from_der der = .error e1 →
        env.pkcs8_from_der der = .error e2 →
        env.sec1_from_der der = .error e3 →
        env.pkcs1_from_der der = .ok key →
        PrivateKey.load_der env der = PrivateKey.from_pkcs1_private_key env key)
    ∧ (∀ e1 e2 e3 e4, env.encrypted_pkcs8_from_der der = .error e1 →
        env.pkcs8_from_der der = .error e2 →
        env.sec1_from_der der = .error e3 →
        env.pkcs1_from_der der = .error e4 →
        PrivateKey.load_der env der = .error .unsupportedFormat) := by
  refine ⟨?_, ?_, ?_, ?_, ?_⟩
  · intro info h
    simp [PrivateKey.load_der, h]
  · intro e info h1 h2
    simp [PrivateKey.load_der, h1, h2]
  · intro e1 e2 key h1 h2 h3
    simp [PrivateKey.load_der, h1, h2, h3]
  · intro e1 e2 e3 key h1 h2 h3 h4
    simp [PrivateKey.load_der, h1, h2, h3, h4]
  · intro e1 e2 e3 e4 h1 h2 h3 h4
    simp [PrivateKey.load_der, h1, h2, h3, h4]

/-- C6: encrypted/unencrypted symmetry.  `load_encrypted_der` on a plain
recognized structure and `load_encrypted_pem` on a plain recognized label
fail with `Unencrypted`; `load_der` on an encrypted container and
`load_pem` on the encrypted label fail with `Encrypted`; and after a
successful decryption the unencrypted DER loader is re-run on the decrypted
bytes, with any error wrapped as `InEncrypted` preserving the inner
error. -/
theorem claim_C6_encrypted_symmetry (env : CryptoEnv) (der : Bytes)
    (password : Bytes) (pem : String) :
    (∀ e, env.encrypted_pkcs8_from_der der = .error e →
      ((env.pkcs8_from_der der).isOk = true
        ∨ (env.sec1_from_der der).isOk = true
        ∨ (env.pkcs1_from_der der).isOk = true) →
      PrivateKey.load_encrypted_der env der password = .error .unencrypted)
    ∧ (∀ label doc, env.pem_decode pem = .ok (label, doc) →
        (label = pkcs1_pem_label ∨ label = pkcs8_pem_label
          ∨ label = sec1_pem_label) →
        PrivateKey.load_encrypted_pem env pem password = .error .unencrypted)
    ∧ (∀ info, env.encrypted_pkcs8_from_der der = .ok info →
        PrivateKey.load_der env der = .error .encrypted)
    ∧ (∀ doc, env.pem_decode pem = .ok (encrypted_pkcs8_pem_label, doc) →
        PrivateKey.load_pem env pem = .error .encrypted)
    ∧ (∀ info decrypted, env.encrypted_pkcs8_from_der der = .ok info →
        env.decrypt info password = .ok decrypted →
        (∀ key, PrivateKey.load_der env decrypted = .ok key →
          PrivateKey.load_encrypted_der env der password = .ok key)
        ∧ (∀ err, PrivateKey.load_der env decrypted = .error err →
          PrivateKey.load_encrypted_der env der password
            = .error (.inEncrypted err))) := by
  refine ⟨?_, ?_, ?_, ?_, ?_⟩
  · intro e he hok
    have : ((env.pkcs8_from_der der).isOk
        || (env.sec1_from_der der).isOk
        || (env.pkcs1_from_der der).isOk) = true := by
      rcases hok with h | h | h <;> simp [h]
    simp [PrivateKey.load_encrypted_der, he, this]
  · intro label doc hdec hlabel
    rcases hlabel with rfl | rfl | rfl <;>
      simp [PrivateKey.load_encrypted_pem, hdec, pkcs1_pem_label,
        pkcs8_pem_label, sec1_pem_label, encrypted_pkcs8_pem_label]
  · intro info h
    simp [PrivateKey.load_der, h]
  · intro doc hdec
    simp [PrivateKey.load_pem, hdec, pkcs1_pem_label,
      pkcs8_pem_label, sec1_pem_label, encrypted_pkcs8_pem_label]
  · intro info decrypted henc hdec
    constructor
    · intro key hload
      simp [PrivateKey.load_encrypted_der, henc, hdec, hload]
    · intro err hload
      simp [PrivateKey.load_encrypted_der, henc, hdec, hload]

/-- C7: for each elliptic-curve variant, `to_der` and `to_pem` serialize
through a SEC1 structure that explicitly embeds the named-curve object
identifier of the key's own curve and the uncompressed encoding of the
key's public point. -/
theorem claim_C7_sec1_embeds_oid_and_point (env : CryptoEnv) (d : Nat)
    (le : LineEnding) :
    (∃ s, PrivateKey.to_der env (.EcP256 d) = env.sec1_to_der s
      ∧ PrivateKey.to_pem env le (.EcP256 d) = env.sec1_to_pem s le
      ∧ s.parameters = some (.namedCurve p256_oid)
      ∧ s.public_key = some ⟨false, env.public_point .p256 d⟩)
    ∧ (∃ s, PrivateKey.to_der env (.EcP384 d) = env.sec1_to_der s
      ∧ PrivateKey.to_pem env le (.EcP384 d) = env.sec1_to_pem s le
      ∧ s.parameters = some (.namedCurve p384_oid)
      ∧ s.public_key = some ⟨false, env.public_point .p384 d⟩)
    ∧ (∃ s, PrivateKey.to_der env (.EcK256 d) = env.sec1_to_der s
      ∧ PrivateKey.to_pem env le (.EcK256 d) = env.sec1_to_pem s le
      ∧ s.parameters = some (.namedCurve k256_oid)
      ∧ s.public_key = some ⟨false, env.public_point .k256 d⟩) :=
  ⟨⟨sec1_structure env .p256 d, rfl, rfl, rfl, rfl⟩,
   ⟨sec1_structure env .p384 d, rfl, rfl, rfl, rfl⟩,
   ⟨sec1_structure env .k256 d, rfl, rfl, rfl, rfl⟩⟩

/-- C9: a PKCS#1 RSA private-key structure whose version is not two-prime
is rejected with the PKCS#1 version error and never produces a key. -/
theorem claim_C9_multiprime_rejected (env : CryptoEnv)
    (k : Pkcs1RsaPrivateKey) (h : k.version ≠ Pkcs1Version.twoPrime) :
    PrivateKey.from_pkcs1_private_key env k = .error (.pkcs1 .version) := by
  simp [PrivateKey.from_pkcs1_private_key, h]

/-- C10: on the empty byte string — which is valid UTF-8, whose PEM
decoding fails as a malformed container, and which no DER format parses —
`load` returns `UnsupportedFormat`. -/
theorem claim_C10_load_empty (env : CryptoEnv)
    (h1 : env.from_utf8 [] = some "")
    (h2 : ∃ e, env.pem_decode "" = .error e)
    (h3 : ∃ e, env.encrypted_pkcs8_from_der [] = .error e)
    (h4 : ∃ e, env.pkcs8_from_der [] = .error e)
    (h5 : ∃ e, env.sec1_from_der [] = .error e)
    (h6 : ∃ e, env.pkcs1_from_der [] = .error e) :
    PrivateKey.load env [] = .error .unsupportedFormat := by
  obtain ⟨e2, h2⟩ := h2
  obtain ⟨e3, h3⟩ := h3
  obtain ⟨e4, h4⟩ := h4
  obtain ⟨e5, h5⟩ := h5
  obtain ⟨e6, h6⟩ := h6
  simp [PrivateKey.load, PrivateKey.load_pem, PrivateKey.load_der,
    h1, h2, h3, h4, h5, h6]

/-! ## Concrete environments and witnesses -/

/-- A concrete primitive environment: every parser fails, and the empty
byte string is the empty UTF-8 string. -/
def sampleEnv : CryptoEnv :=
  { from_utf8 := fun b => if b = [] then some "" else none
    pem_decode := fun _ => .error ⟨0⟩
    pkcs1_from_der := fun _ => .error ⟨0⟩
    pkcs8_from_der := fun _ => .error ⟨0⟩
    sec1_from_der := fun _ => .error ⟨0⟩
    encrypted_pkcs8_from_der := fun _ => .error ⟨0⟩
    decrypt := fun _ _ => .error ⟨0⟩
    rsa_from_components := fun n e d primes => .ok ⟨n, e, d, primes⟩
    rsa_from_info := fun _ => .error ⟨0⟩
    ec_p256_from_info := fun _ => .error ⟨0⟩
    ec_p384_from_info := fun _ => .error ⟨0⟩
    ec_k256_from_info := fun _ => .error ⟨0⟩
    ec_p256_from_sec1 := fun _ => .error ⟨0⟩
    ec_p384_from_sec1 := fun _ => .error ⟨0⟩
    ec_k256_from_sec1 := fun _ => .error ⟨0⟩
    public_point := fun _ d => d + 1
    scalar_bytes := fun _ d => [d]
    rsa_to_pkcs1_der := fun _ => .ok []
    rsa_to_pkcs1_pem := fun _ _ => .ok ""
    sec1_to_der := fun _ => .ok []
    sec1_to_pem := fun _ _ => .ok "" }

/-- An environment whose PEM layer decodes to an unsupported label. -/
def sampleEnvB : CryptoEnv :=
  { sampleEnv with
    from_utf8 := fun _ => some "x"
    pem_decode := fun _ => .ok ("FOO", []) }

/-- An environment in which every byte string parses as an encrypted PKCS#8
container and decrypts successfully. -/
def envEncrypted : CryptoEnv :=
  { sampleEnv with
    encrypted_pkcs8_from_der := fun _ => .ok ⟨[]⟩
    decrypt := fun _ _ => .ok [9] }

/-- An environment in which every byte string parses as a plain PKCS#8
private-key structure. -/
def envPlainPkcs8 : CryptoEnv :=
  { sampleEnv with
    pkcs8_from_der := fun _ => .ok ⟨[9], .error ⟨0⟩, []⟩ }

/-- An environment whose PEM layer decodes to the encrypted PKCS#8
label. -/
def envPemEnc : CryptoEnv :=
  { sampleEnv with
    from_utf8 := fun _ => some "p"
    pem_decode := fun _ => .ok (encrypted_pkcs8_pem_label, []) }

/-- Witness for C1 at the incompatible pair (P-256 key, RS256). -/
theorem claim_C1_witness :
    PrivateKey.signing_key_for_alg (.EcP256 5) .Rs256 = .error .mk
    ∧ PrivateKey.verifying_key_for_alg sampleEnv (.EcP256 5) .Rs256
      = .error .mk :=
  (claim_C1_algorithm_binding sampleEnv (.EcP256 5) .Rs256).2.2 rfl

/-- Witness for C4: non-UTF-8 input goes to DER, a PEM container failure
falls through to DER, and a non-container PEM error is returned as is. -/
theorem claim_C4_witness :
    PrivateKey.load sampleEnv [1] = PrivateKey.load_der sampleEnv [1]
    ∧ PrivateKey.load sampleEnv [] = PrivateKey.load_der sampleEnv []
    ∧ PrivateKey.load sampleEnvB [2] = .error (.unsupportedPemLabel "FOO") :=
  ⟨(claim_C4_load_precedence sampleEnv [1]).1 rfl,
   ((claim_C4_load_precedence sampleEnv []).2 "" rfl).1 ⟨0⟩ rfl,
   ((claim_C4_load_precedence sampleEnvB [2]).2 "x" rfl).2.2
     (.unsupportedPemLabel "FOO") rfl (by simp)⟩

/-- Witness for C5: the encrypted fail-fast branch and the
`UnsupportedFormat` fallback at concrete inputs. -/
theorem claim_C5_witness :
    PrivateKey.load_der envEncrypted [3] = .error .encrypted
    ∧ PrivateKey.load_der sampleEnv [3] = .error .unsupportedFormat :=
  ⟨(claim_C5_load_der_order envEncrypted [3]).1 ⟨[]⟩ rfl,
   (claim_C5_load_der_order sampleEnv [3]).2.2.2.2
     ⟨0⟩ ⟨0⟩ ⟨0⟩ ⟨0⟩ rfl rfl rfl rfl⟩

/-- Witness for C6: `Unencrypted` on a plain PKCS#8 structure, `Encrypted`
on the encrypted PEM label, and the `InEncrypted` wrapping after a
successful decryption. -/
theorem claim_C6_witness :
    PrivateKey.load_encrypted_der envPlainPkcs8 [1] [2] = .error .unencrypted
    ∧ PrivateKey.load_pem envPemEnc "p" = .error .encrypted
    ∧ PrivateKey.load_encrypted_der envEncrypted [4] [5]
      = .error (.inEncrypted .encrypted) :=
  ⟨(claim_C6_encrypted_symmetry envPlainPkcs8 [1] [2] "").1
      ⟨0⟩ rfl (Or.inl rfl),
   (claim_C6_encrypted_symmetry envPemEnc [0] [0] "p").2.2.2.1 [] rfl,
   ((claim_C6_encrypted_symmetry envEncrypted [4] [5] "").2.2.2.2
      ⟨[]⟩ [9] rfl rfl).2 .encrypted rfl⟩

/-- Witness for C8 at a concrete constraint set, its reversal, and a
duplicate insertion. -/
theorem claim_C8_witness :
    ConstraintSet.filter ⟨[Constraint.kid "a", Constraint.alg .Rs256]⟩
        [⟨some .Rs256, [], some "a", none, .Rsa⟩]
      = ConstraintSet.filter ⟨[Constraint.alg .Rs256, Constraint.kid "a"]⟩
        [⟨some .Rs256, [], some "a", none, .Rsa⟩]
    ∧ ConstraintSet.filter
        (ConstraintSet.insert ⟨[Constraint.kid "a", Constraint.alg .Rs256]⟩
          (Constraint.kid "a"))
        [⟨some .Rs256, [], some "a", none, .Rsa⟩]
      = ConstraintSet.filter ⟨[Constraint.kid "a", Constraint.alg .Rs256]⟩
        [⟨some .Rs256, [], some "a", none, .Rsa⟩] :=
  claim_C8_order_and_duplicates _ _ _ _
    (List.Perm.swap _ _ _) (List.mem_cons_self _ _)

/-- Witness for C9 at a concrete multi-prime PKCS#1 structure. -/
theorem claim_C9_witness :
    PrivateKey.from_pkcs1_private_key sampleEnv
        ⟨.multi, [1], [1], [1], [1], [1]⟩
      = .error (.pkcs1 .version) :=
  claim_C9_multiprime_rejected sampleEnv _ (by decide)

/-- Witness for C10 at the concrete environment. -/
theorem claim_C10_witness :
    PrivateKey.load sampleEnv [] = .error .unsupportedFormat :=
  claim_C10_load_empty sampleEnv rfl
    ⟨⟨0⟩, rfl⟩ ⟨⟨0⟩, rfl⟩ ⟨⟨0⟩, rfl⟩ ⟨⟨0⟩, rfl⟩ ⟨⟨0⟩, rfl⟩

end Mas
